import Mathlib

/-!
# Verification of a Letterboxd → Plex watchlist reconciliation program

A shallow embedding of `src/letterboxd_plex_watchlist_sync.py`.

Python strings are represented as `List Char`; Python's `in` substring
test and `str.split` are embedded by `containsSub` and `pySplit` below.
Fallible operations (list indexing that can raise `IndexError`, remote
calls that can raise) are embedded in `Except PyErr`.
-/

namespace LetterboxdPlexSync

/-- The character list of a string literal: the representation used here
for Python strings. -/
def toCL (s : String) : List Char := s.data

/-- Python's substring containment test `needle in haystack`: true when
`needle` occurs contiguously somewhere in the haystack. -/
def containsSub (needle : List Char) : List Char → Bool
  | [] => needle.isEmpty
  | c :: rest => needle.isPrefixOf (c :: rest) || containsSub needle rest

/-- Worker for `pySplit`, structural in the scanned list.  While
`skip > 0` the scanner is inside an already-matched separator occurrence
and consumes characters without emitting them; at `skip = 0` it tests
for a separator occurrence starting at the current position. -/
def pySplitGo (c0 : Char) (cs : List Char) : Nat → List Char → List (List Char)
  | _, [] => [[]]
  | Nat.succ k, _ :: rest => pySplitGo c0 cs k rest
  | 0, c :: rest =>
    if (c0 :: cs).isPrefixOf (c :: rest) then
      [] :: pySplitGo c0 cs cs.length rest
    else
      match pySplitGo c0 cs 0 rest with
      | [] => [[c]]
      | h :: t => (c :: h) :: t

/-- Python's `str.split(sep)` on character lists, for the nonempty
separator `c0 :: cs`: scans left to right, splitting at every
non-overlapping occurrence of the separator.  Always returns a nonempty
list of parts; a string with no separator occurrence yields one part. -/
def pySplit (c0 : Char) (cs : List Char) (l : List Char) : List (List Char) :=
  pySplitGo c0 cs 0 l

/-- A raised Python exception, identified by a numeric code so distinct
failure sites can be told apart in tests. -/
structure PyErr where
  code : Nat
deriving DecidableEq, Repr

/-- The `IndexError` a Python list index access can raise. -/
def indexError : PyErr := ⟨0⟩

/-- The namespace marker the source tests for with
`"imdb://" in str(guid)`. -/
def imdbMarker : List Char := toCL "imdb://"

/-- Embedding of `get_imdb_id_from_guid` (source lines 61-65):

```python
def get_imdb_id_from_guid(guid):
    if "imdb://" in str(guid):
        return str(guid).split('://')[1].split(">")[0]
    return None
```

The two list index accesses (`[1]` and `[0]`) can in principle raise
`IndexError`, so they are embedded fallibly; `get_imdb_id_never_raises`
below proves no input reaches the error branches. -/
def get_imdb_id_from_guid (guid : List Char) : Except PyErr (Option (List Char)) :=
  if containsSub imdbMarker guid then
    match (pySplit ':' (toCL "//") guid)[1]? with
    | none => Except.error indexError
    | some part =>
      match (pySplit '>' [] part)[0]? with
      | none => Except.error indexError
      | some v => Except.ok (some v)
  else
    Except.ok none

/-- The extractor as a total function: identical to
`get_imdb_id_from_guid` on every input by `get_imdb_id_never_raises`. -/
def get_imdb_id_total (guid : List Char) : Option (List Char) :=
  match get_imdb_id_from_guid guid with
  | Except.ok r => r
  | Except.error _ => none

theorem pySplitGo_ne_nil (c0 : Char) (cs : List Char) :
    ∀ (l : List Char) (skip : Nat), pySplitGo c0 cs skip l ≠ [] := by
  intro l
  induction l with
  | nil => intro skip; cases skip <;> simp [pySplitGo]
  | cons c rest ih =>
    intro skip
    cases skip with
    | succ k => simpa [pySplitGo] using ih k
    | zero =>
      rw [pySplitGo]
      split
      · simp
      · split
        · simp
        · simp

theorem pySplit_ne_nil (c0 : Char) (cs l : List Char) : pySplit c0 cs l ≠ [] :=
  pySplitGo_ne_nil c0 cs l 0

theorem containsSub_iff (n : List Char) :
    ∀ s : List Char, containsSub n s = true ↔ n <:+: s := by
  intro s
  induction s with
  | nil =>
    simp [containsSub, List.isEmpty_iff, List.infix_nil]
  | cons c rest ih =>
    rw [containsSub, Bool.or_eq_true, List.isPrefixOf_iff_prefix, ih,
      List.infix_cons_iff]

theorem two_le_length_pySplit (c0 : Char) (cs : List Char) :
    ∀ l : List Char, (c0 :: cs) <:+: l → 2 ≤ (pySplit c0 cs l).length := by
  intro l
  induction l with
  | nil => intro h; simp at h
  | cons c rest ih =>
    intro h
    rw [pySplit, pySplitGo]
    by_cases hp : (c0 :: cs).isPrefixOf (c :: rest) = true
    · rw [if_pos hp]
      have hne := pySplitGo_ne_nil c0 cs rest cs.length
      have : 0 < (pySplitGo c0 cs cs.length rest).length := List.length_pos.mpr hne
      simp only [List.length_cons]
      omega
    · rw [if_neg hp]
      have hr : (c0 :: cs) <:+: rest := by
        rcases List.infix_cons_iff.mp h with hpre | hinf
        · exact absurd (List.isPrefixOf_iff_prefix.mpr hpre) hp
        · exact hinf
      have h2 := ih hr
      rw [pySplit] at h2
      cases heq : pySplitGo c0 cs 0 rest with
      | nil => exact absurd heq (pySplitGo_ne_nil c0 cs rest 0)
      | cons hd tl =>
        rw [heq] at h2
        simpa using h2

theorem get_imdb_id_ok_of_marker (guid : List Char)
    (hm : containsSub imdbMarker guid = true) :
    ∃ v, get_imdb_id_from_guid guid = Except.ok (some v) := by
  have hinf : imdbMarker <:+: guid := (containsSub_iff _ _).mp hm
  have hsep : (':' :: toCL "//") <:+: guid :=
    List.IsInfix.trans ⟨toCL "imdb", [], by decide⟩ hinf
  have h2 : 2 ≤ (pySplit ':' (toCL "//") guid).length :=
    two_le_length_pySplit _ _ _ hsep
  obtain ⟨part, hpart⟩ : ∃ p, (pySplit ':' (toCL "//") guid)[1]? = some p :=
    ⟨_, List.getElem?_eq_getElem (by omega)⟩
  have hne := pySplit_ne_nil '>' [] part
  obtain ⟨v, hv⟩ : ∃ v, (pySplit '>' [] part)[0]? = some v :=
    ⟨_, List.getElem?_eq_getElem (List.length_pos.mpr hne)⟩
  refine ⟨v, ?_⟩
  rw [get_imdb_id_from_guid, if_pos hm, hpart]
  dsimp only
  rw [hv]

theorem get_imdb_id_none_of_no_marker (guid : List Char)
    (hm : containsSub imdbMarker guid = false) :
    get_imdb_id_from_guid guid = Except.ok none := by
  rw [get_imdb_id_from_guid, if_neg (by simp [hm])]

/-- C10: totality of the identifier extractor.  The fallible embedding
`get_imdb_id_from_guid` never reaches an `IndexError`: on every input it
returns `Except.ok` of the total function `get_imdb_id_total` — whenever
`"imdb://"` occurs in the input, the split on `"://"` yields at least
two parts, and the subsequent split on `">"` is always nonempty. -/
theorem get_imdb_id_never_raises (guid : List Char) :
    get_imdb_id_from_guid guid = Except.ok (get_imdb_id_total guid) := by
  by_cases hm : containsSub imdbMarker guid = true
  · obtain ⟨v, hv⟩ := get_imdb_id_ok_of_marker guid hm
    rw [get_imdb_id_total, hv]
  · have hm2 : containsSub imdbMarker guid = false := by
      cases h : containsSub imdbMarker guid
      · rfl
      · exact absurd h hm
    have := get_imdb_id_none_of_no_marker guid hm2
    rw [get_imdb_id_total, this]

/-- C2 counterexample: the string `"ximdb://tt123"` does not begin with
the namespace literal `"imdb://"`, yet the extractor returns an id
(the source tests substring containment, not the namespace of the
identifier). -/
theorem extractor_claim_cex :
    imdbMarker.isPrefixOf (toCL "ximdb://tt123") = false ∧
    get_imdb_id_total (toCL "ximdb://tt123") = some (toCL "tt123") := by
  constructor
  · decide
  · decide

/-- C2 (amended): the extractor returns nothing exactly when the
substring `"imdb://"` does not occur anywhere in the identifier string;
an occurrence anywhere — not only as the namespace at the start —
produces an id. -/
theorem extractor_none_iff_no_marker (s : List Char) :
    get_imdb_id_total s = none ↔ containsSub imdbMarker s = false := by
  constructor
  · intro h
    cases hm : containsSub imdbMarker s
    · rfl
    · obtain ⟨v, hv⟩ := get_imdb_id_ok_of_marker s hm
      rw [get_imdb_id_total, hv] at h
      exact absurd h (by simp)
  · intro hm
    rw [get_imdb_id_total, get_imdb_id_none_of_no_marker s hm]

/-- One entry of the Letterboxd watchlist or watched list: the source
reads the `"title"` and `"imdb_id"` fields of each fetched record. -/
structure MovieRecord where
  title : List Char
  imdb_id : List Char
deriving DecidableEq, Repr

/-- An item of the current Plex watchlist — and likewise a Plex Discover
search result, which exposes the same shape: a display title and a list
of GUID strings. -/
structure WatchlistItem where
  title : List Char
  guids : List (List Char)
deriving DecidableEq, Repr

/-- The three tagged tuples `process_single_watchlist_item` can return:
`("remove", imdb_id, item)`, `("present", imdb_id, None)` and
`("add", None, item)`.  The statically absent `None` components are
dropped from the payloads. -/
inductive Classification where
  | remove (imdb_id : List Char) (item : WatchlistItem)
  | present (imdb_id : List Char)
  | add (item : WatchlistItem)
deriving DecidableEq, Repr

/-- Discriminator for the `remove` tag. -/
def Classification.isRemove : Classification → Bool
  | .remove _ _ => true
  | _ => false

/-- The guid loop of `process_single_watchlist_item` (source lines
71-89).  `found_already` mirrors the source's local variable of that
name, which is initialised to `False` and never reassigned; the Python
truthiness test `if not imdb_id: continue` skips both `None` and the
empty string. -/
def processGuids (lwl lwd : List MovieRecord) (item : WatchlistItem)
    (found_already : Bool) : List (List Char) → Classification
  | [] => Classification.add item
  | guid :: rest =>
    match get_imdb_id_total guid with
    | none => processGuids lwl lwd item found_already rest
    | some imdb_id =>
      if imdb_id.isEmpty then processGuids lwl lwd item found_already rest
      else if lwd.any (fun w => imdb_id == w.imdb_id) then
        Classification.remove imdb_id item
      else if !found_already && lwl.any (fun w => imdb_id == w.imdb_id) then
        Classification.present imdb_id
      else processGuids lwl lwd item found_already rest

/-- Embedding of `process_single_watchlist_item` (source lines 67-89):
classify one current watchlist item against the Letterboxd watchlist
(`lwl`, the desired set) and watched list (`lwd`). -/
def process_single_watchlist_item (item : WatchlistItem)
    (lwl lwd : List MovieRecord) : Classification :=
  processGuids lwl lwd item false item.guids

/-- The first identifier of a guid list that the extractor decodes to a
truthy (nonempty) id: the first id the source's guid loop checks against
the two sets. -/
def firstExtractedId : List (List Char) → Option (List Char)
  | [] => none
  | g :: gs =>
    match get_imdb_id_total g with
    | none => firstExtractedId gs
    | some i => if i.isEmpty then firstExtractedId gs else some i

theorem processGuids_remove_of_first (lwl lwd : List MovieRecord)
    (item : WatchlistItem) (fa : Bool) (x : List Char)
    (hany : lwd.any (fun w => x == w.imdb_id) = true) :
    ∀ gs, firstExtractedId gs = some x →
      processGuids lwl lwd item fa gs = Classification.remove x item := by
  intro gs
  induction gs with
  | nil => intro h; simp [firstExtractedId] at h
  | cons g rest ih =>
    intro hfirst
    rw [firstExtractedId] at hfirst
    rw [processGuids]
    cases hg : get_imdb_id_total g with
    | none =>
      simp only [hg] at hfirst
      simp only [hg]
      exact ih hfirst
    | some i =>
      simp only [hg] at hfirst
      simp only [hg]
      by_cases hemp : i.isEmpty = true
      · rw [if_pos hemp] at hfirst
        rw [if_pos hemp]
        exact ih hfirst
      · rw [if_neg hemp] at hfirst
        have hix := Option.some.inj hfirst
        subst hix
        rw [if_neg hemp, if_pos hany]

/-- C4: an item whose first extracted id occurs in both the watched set
and the desired set is classified `remove` — the watched-set check
precedes the desired-set check. -/
theorem classify_watched_and_desired_is_remove
    (item : WatchlistItem) (lwl lwd : List MovieRecord) (x : List Char)
    (hfirst : firstExtractedId item.guids = some x)
    (hw : ∃ w ∈ lwd, w.imdb_id = x) (_hd : ∃ d ∈ lwl, d.imdb_id = x) :
    process_single_watchlist_item item lwl lwd = Classification.remove x item := by
  have hany : lwd.any (fun w => x == w.imdb_id) = true := by
    rcases hw with ⟨w, hwmem, hwid⟩
    exact List.any_eq_true.mpr ⟨w, hwmem, by simp [hwid]⟩
  exact processGuids_remove_of_first lwl lwd item false x hany item.guids hfirst

/-- Witness for C4 at a concrete item present in both sets. -/
theorem classify_watched_and_desired_is_remove_witness :
    firstExtractedId [toCL "imdb://tt1"] = some (toCL "tt1") ∧
    process_single_watchlist_item ⟨toCL "M", [toCL "imdb://tt1"]⟩
        [⟨toCL "M", toCL "tt1"⟩] [⟨toCL "W", toCL "tt1"⟩] =
      Classification.remove (toCL "tt1") ⟨toCL "M", [toCL "imdb://tt1"]⟩ :=
  ⟨by decide,
   classify_watched_and_desired_is_remove ⟨toCL "M", [toCL "imdb://tt1"]⟩
     [⟨toCL "M", toCL "tt1"⟩] [⟨toCL "W", toCL "tt1"⟩] (toCL "tt1") (by decide)
     ⟨⟨toCL "W", toCL "tt1"⟩, by decide, rfl⟩
     ⟨⟨toCL "M", toCL "tt1"⟩, by decide, rfl⟩⟩

/-- The item and watched record of the spec's Scenario A. -/
def scenarioAItem : WatchlistItem :=
  ⟨toCL "Shawshank", [toCL "imdb://tt0111161<extra>"]⟩

/-- The watched record of the spec's Scenario A. -/
def scenarioAWatched : MovieRecord := ⟨toCL "Shawshank", toCL "tt0111161"⟩

/-- C3 counterexample: with identifier `imdb://tt0111161<extra>` and a
watched set containing `{title: Shawshank, imdb_id: tt0111161}`, the
extractor yields `tt0111161<extra` — the source strips a suffix only
from the first `">"` onward, and `"<"` is not a delimiter — so the item
is classified `add`, not `remove`. -/
theorem strip_suffix_claim_cex :
    (process_single_watchlist_item scenarioAItem [] [scenarioAWatched]).isRemove
        = false ∧
    process_single_watchlist_item scenarioAItem [] [scenarioAWatched] =
      Classification.add scenarioAItem := by
  constructor
  · decide
  · decide

/-- C3 (amended): trailing decorative characters are stripped from the
first `">"` delimiter onward — not from an arbitrary non-value character
such as `"<"` — so an item carrying identifier `imdb://tt0111161>extra`
is classified `remove` whenever the watched set contains a record with
external id `tt0111161`. -/
theorem strip_suffix_amended (item : WatchlistItem) (lwl lwd : List MovieRecord)
    (hguids : item.guids = [toCL "imdb://tt0111161>extra"])
    (hw : ∃ w ∈ lwd, w.imdb_id = toCL "tt0111161") :
    process_single_watchlist_item item lwl lwd =
      Classification.remove (toCL "tt0111161") item := by
  have hany : lwd.any (fun w => toCL "tt0111161" == w.imdb_id) = true := by
    rcases hw with ⟨w, hwmem, hwid⟩
    exact List.any_eq_true.mpr ⟨w, hwmem, by simp [hwid]⟩
  rw [process_single_watchlist_item, hguids]
  exact processGuids_remove_of_first lwl lwd item false (toCL "tt0111161") hany
    [toCL "imdb://tt0111161>extra"] (by decide)

/-- Witness for the amended C3 at a concrete item and watched set. -/
theorem strip_suffix_amended_witness :
    (⟨toCL "Shawshank", [toCL "imdb://tt0111161>extra"]⟩ : WatchlistItem).guids =
        [toCL "imdb://tt0111161>extra"] ∧
    process_single_watchlist_item
        ⟨toCL "Shawshank", [toCL "imdb://tt0111161>extra"]⟩ []
        [⟨toCL "Shawshank", toCL "tt0111161"⟩] =
      Classification.remove (toCL "tt0111161")
        ⟨toCL "Shawshank", [toCL "imdb://tt0111161>extra"]⟩ :=
  ⟨rfl,
   strip_suffix_amended ⟨toCL "Shawshank", [toCL "imdb://tt0111161>extra"]⟩ []
     [⟨toCL "Shawshank", toCL "tt0111161"⟩] rfl
     ⟨⟨toCL "Shawshank", toCL "tt0111161"⟩, by decide, rfl⟩⟩

/-- Routing of one completed classification into the three buckets
(the `if action == ...` chain of source lines 113-118): each outcome is
appended to exactly one bucket. -/
def insertOutcome (c : Classification)
    (buckets : List WatchlistItem × List (List Char) × List WatchlistItem) :
    List WatchlistItem × List (List Char) × List WatchlistItem :=
  match c with
  | Classification.remove _ it => (it :: buckets.1, buckets.2.1, buckets.2.2)
  | Classification.present i => (buckets.1, i :: buckets.2.1, buckets.2.2)
  | Classification.add it => (buckets.1, buckets.2.1, it :: buckets.2.2)

/-- Embedding of `process_watchlist_items` (source lines 91-120).  The
source classifies every current item on a bounded thread pool and
appends each completed result to one of three buckets in completion
order; here the completion order is an explicit argument, and every
interleaving the pool can produce is a permutation of the submitted
item list.  Returns `(movies_to_remove, already_present,
movies_to_add_to_letterboxd)`. -/
def process_watchlist_items (completion_order : List WatchlistItem)
    (lwl lwd : List MovieRecord) :
    List WatchlistItem × List (List Char) × List WatchlistItem :=
  match completion_order with
  | [] => ([], [], [])
  | item :: rest =>
    insertOutcome (process_single_watchlist_item item lwl lwd)
      (process_watchlist_items rest lwl lwd)

/-- The remove-bucket contribution of one item. -/
def removePart (lwl lwd : List MovieRecord) (item : WatchlistItem) :
    Option WatchlistItem :=
  match process_single_watchlist_item item lwl lwd with
  | Classification.remove _ it => some it
  | _ => none

/-- The present-bucket contribution of one item. -/
def presentPart (lwl lwd : List MovieRecord) (item : WatchlistItem) :
    Option (List Char) :=
  match process_single_watchlist_item item lwl lwd with
  | Classification.present i => some i
  | _ => none

/-- The add-bucket contribution of one item. -/
def addPart (lwl lwd : List MovieRecord) (item : WatchlistItem) :
    Option WatchlistItem :=
  match process_single_watchlist_item item lwl lwd with
  | Classification.add it => some it
  | _ => none

theorem process_watchlist_items_eq_filterMap (lwl lwd : List MovieRecord) :
    ∀ order : List WatchlistItem,
      process_watchlist_items order lwl lwd =
        (order.filterMap (removePart lwl lwd),
         order.filterMap (presentPart lwl lwd),
         order.filterMap (addPart lwl lwd)) := by
  intro order
  induction order with
  | nil => rfl
  | cons item rest ih =>
    rw [process_watchlist_items, ih]
    cases hc : process_single_watchlist_item item lwl lwd <;>
      simp [insertOutcome, List.filterMap_cons, removePart, presentPart, addPart, hc]

theorem process_watchlist_items_sizes (lwl lwd : List MovieRecord) :
    ∀ order : List WatchlistItem,
      (process_watchlist_items order lwl lwd).1.length +
        (process_watchlist_items order lwl lwd).2.1.length +
        (process_watchlist_items order lwl lwd).2.2.length = order.length := by
  intro order
  induction order with
  | nil => rfl
  | cons item rest ih =>
    rw [process_watchlist_items]
    cases process_single_watchlist_item item lwl lwd <;>
      · simp only [insertOutcome, List.length_cons]
        omega

/-- C5: bucket completeness.  Classification returns exactly one tagged
outcome per item (`Classification` has exactly the three tags, and
`insertOutcome` routes each to exactly one bucket), and for every
completion order of the current items the bucket sizes satisfy
`|remove| + |present| + |add| = |current_items|`. -/
theorem bucket_sizes_sum (current_items : List WatchlistItem)
    (lwl lwd : List MovieRecord) (order : List WatchlistItem)
    (hperm : order.Perm current_items) :
    (process_watchlist_items order lwl lwd).1.length +
      (process_watchlist_items order lwl lwd).2.1.length +
      (process_watchlist_items order lwl lwd).2.2.length =
      current_items.length :=
  (process_watchlist_items_sizes lwl lwd order).trans hperm.length_eq

/-- Witness for C5: two items completing in reversed order still fill
the buckets with two outcomes in total. -/
theorem bucket_sizes_sum_witness :
    ((⟨toCL "B", [toCL "imdb://tt2"]⟩ : WatchlistItem) ::
        [⟨toCL "A", [toCL "imdb://tt1"]⟩]).Perm
      [⟨toCL "A", [toCL "imdb://tt1"]⟩, ⟨toCL "B", [toCL "imdb://tt2"]⟩] ∧
    (process_watchlist_items
        [⟨toCL "B", [toCL "imdb://tt2"]⟩, ⟨toCL "A", [toCL "imdb://tt1"]⟩]
        [⟨toCL "A", toCL "tt1"⟩] [⟨toCL "B", toCL "tt2"⟩]).1.length +
      (process_watchlist_items
        [⟨toCL "B", [toCL "imdb://tt2"]⟩, ⟨toCL "A", [toCL "imdb://tt1"]⟩]
        [⟨toCL "A", toCL "tt1"⟩] [⟨toCL "B", toCL "tt2"⟩]).2.1.length +
      (process_watchlist_items
        [⟨toCL "B", [toCL "imdb://tt2"]⟩, ⟨toCL "A", [toCL "imdb://tt1"]⟩]
        [⟨toCL "A", toCL "tt1"⟩] [⟨toCL "B", toCL "tt2"⟩]).2.2.length =
      ([⟨toCL "A", [toCL "imdb://tt1"]⟩,
        ⟨toCL "B", [toCL "imdb://tt2"]⟩] : List WatchlistItem).length :=
  ⟨List.Perm.swap _ _ _,
   bucket_sizes_sum
     [⟨toCL "A", [toCL "imdb://tt1"]⟩, ⟨toCL "B", [toCL "imdb://tt2"]⟩]
     [⟨toCL "A", toCL "tt1"⟩] [⟨toCL "B", toCL "tt2"⟩]
     [⟨toCL "B", [toCL "imdb://tt2"]⟩, ⟨toCL "A", [toCL "imdb://tt1"]⟩]
     (List.Perm.swap _ _ _)⟩

/-- C9: determinism of reconciliation.  For any two completion orders of
the same static current item list — e.g. two successive runs over the
same desired/watched/current snapshot — the three buckets agree as
multisets: bucket membership is a function of the item and the two
reference sets only, never of scheduling order (the source fixes no
order within a bucket, since results arrive in completion order). -/
theorem buckets_scheduling_independent (current_items : List WatchlistItem)
    (lwl lwd : List MovieRecord) (o1 o2 : List WatchlistItem)
    (h1 : o1.Perm current_items) (h2 : o2.Perm current_items) :
    (process_watchlist_items o1 lwl lwd).1.Perm
        (process_watchlist_items o2 lwl lwd).1 ∧
    (process_watchlist_items o1 lwl lwd).2.1.Perm
        (process_watchlist_items o2 lwl lwd).2.1 ∧
    (process_watchlist_items o1 lwl lwd).2.2.Perm
        (process_watchlist_items o2 lwl lwd).2.2 := by
  have h12 : o1.Perm o2 := h1.trans h2.symm
  rw [process_watchlist_items_eq_filterMap, process_watchlist_items_eq_filterMap]
  exact ⟨h12.filterMap _, h12.filterMap _, h12.filterMap _⟩

/-- Witness for C9: a two-item snapshot processed in the two possible
completion orders yields permutation-equal buckets. -/
theorem buckets_scheduling_independent_witness :
    ((⟨toCL "A", [toCL "imdb://tt1"]⟩ : WatchlistItem) ::
        [⟨toCL "B", [toCL "imdb://tt2"]⟩]).Perm
      [⟨toCL "A", [toCL "imdb://tt1"]⟩, ⟨toCL "B", [toCL "imdb://tt2"]⟩] ∧
    ((process_watchlist_items
        [⟨toCL "A", [toCL "imdb://tt1"]⟩, ⟨toCL "B", [toCL "imdb://tt2"]⟩]
        [⟨toCL "A", toCL "tt1"⟩] [⟨toCL "B", toCL "tt2"⟩]).1.Perm
      (process_watchlist_items
        [⟨toCL "B", [toCL "imdb://tt2"]⟩, ⟨toCL "A", [toCL "imdb://tt1"]⟩]
        [⟨toCL "A", toCL "tt1"⟩] [⟨toCL "B", toCL "tt2"⟩]).1 ∧
     (process_watchlist_items
        [⟨toCL "A", [toCL "imdb://tt1"]⟩, ⟨toCL "B", [toCL "imdb://tt2"]⟩]
        [⟨toCL "A", toCL "tt1"⟩] [⟨toCL "B", toCL "tt2"⟩]).2.1.Perm
      (process_watchlist_items
        [⟨toCL "B", [toCL "imdb://tt2"]⟩, ⟨toCL "A", [toCL "imdb://tt1"]⟩]
        [⟨toCL "A", toCL "tt1"⟩] [⟨toCL "B", toCL "tt2"⟩]).2.1 ∧
     (process_watchlist_items
        [⟨toCL "A", [toCL "imdb://tt1"]⟩, ⟨toCL "B", [toCL "imdb://tt2"]⟩]
        [⟨toCL "A", toCL "tt1"⟩] [⟨toCL "B", toCL "tt2"⟩]).2.2.Perm
      (process_watchlist_items
        [⟨toCL "B", [toCL "imdb://tt2"]⟩, ⟨toCL "A", [toCL "imdb://tt1"]⟩]
        [⟨toCL "A", toCL "tt1"⟩] [⟨toCL "B", toCL "tt2"⟩]).2.2) :=
  ⟨List.Perm.refl _,
   buckets_scheduling_independent
     [⟨toCL "A", [toCL "imdb://tt1"]⟩, ⟨toCL "B", [toCL "imdb://tt2"]⟩]
     [⟨toCL "A", toCL "tt1"⟩] [⟨toCL "B", toCL "tt2"⟩]
     [⟨toCL "A", [toCL "imdb://tt1"]⟩, ⟨toCL "B", [toCL "imdb://tt2"]⟩]
     [⟨toCL "B", [toCL "imdb://tt2"]⟩, ⟨toCL "A", [toCL "imdb://tt1"]⟩]
     (List.Perm.refl _) (List.Perm.swap _ _ _)⟩

/-- A remote call issued by the run, in issue order.  `search t` records
the call `account.searchDiscover(t, ...)` (recorded even when the call
raises), `added m c` the call `account.addToWatchlist(c)` issued while
converging record `m`, and `removeCall items` the bulk
`account.removeFromWatchlist(items)` call. -/
inductive Event where
  | search (title : List Char)
  | added (movie : MovieRecord) (candidate : WatchlistItem)
  | removeCall (items : List WatchlistItem)
deriving DecidableEq, Repr

/-- The remote Plex account operations the convergence loop uses, as
oracles; each can raise. -/
structure PlexEnv where
  searchDiscover : List Char → Except PyErr (List WatchlistItem)
  addToWatchlist : WatchlistItem → Except PyErr Unit

/-- The guid test of the convergence loop (source lines 140-141):
`imdb_id = get_imdb_id_from_guid(guid)` followed by the truthiness-and-
equality test `if imdb_id and imdb_id == movie["imdb_id"]`. -/
def guidMatches (movie_id : List Char) (guid : List Char) : Bool :=
  match get_imdb_id_total guid with
  | none => false
  | some i => !i.isEmpty && i == movie_id

/-- The candidate scan with `found`/`break` of source lines 137-147: the
first Discover candidate one of whose guids matches the record's id.
The add operation is issued for exactly this candidate, and no later
candidate is scanned. -/
def firstMatchingCandidate (movie_id : List Char) :
    List WatchlistItem → Option WatchlistItem
  | [] => none
  | c :: cs =>
    if c.guids.any (guidMatches movie_id) then some c
    else firstMatchingCandidate movie_id cs

/-- Embedding of `sync_watchlist` (source lines 122-153).  Records whose
id is in `already_present` are skipped; otherwise the catalog is
searched by title and the first identifier-confirmed candidate is added;
with no confirmed candidate the record joins `unsynced_movies`.  The
source body contains no `try`/`except`, so an exception raised by
`searchDiscover` or `addToWatchlist` propagates, discarding the
unsynced list built so far; the second component is the trace of remote
calls issued. -/
def sync_watchlist (env : PlexEnv) (watchlist : List MovieRecord)
    (already_present : List (List Char)) :
    Except PyErr (List MovieRecord) × List Event :=
  match watchlist with
  | [] => (Except.ok [], [])
  | movie :: rest =>
    if movie.imdb_id ∈ already_present then
      sync_watchlist env rest already_present
    else
      match env.searchDiscover movie.title with
      | Except.error e => (Except.error e, [Event.search movie.title])
      | Except.ok discover_results =>
        match firstMatchingCandidate movie.imdb_id discover_results with
        | some c =>
          match env.addToWatchlist c with
          | Except.error e =>
            (Except.error e, [Event.search movie.title, Event.added movie c])
          | Except.ok _ =>
            ((sync_watchlist env rest already_present).1,
             Event.search movie.title :: Event.added movie c ::
               (sync_watchlist env rest already_present).2)
        | none =>
          (Except.map (fun l => movie :: l)
             (sync_watchlist env rest already_present).1,
           Event.search movie.title ::
             (sync_watchlist env rest already_present).2)

/-- Two desired-set records used in the concrete runs below. -/
def movieT1 : MovieRecord := ⟨toCL "t1", toCL "id1"⟩

/-- A second desired-set record. -/
def movieT2 : MovieRecord := ⟨toCL "t2", toCL "id2"⟩

/-- An environment whose catalog search raises on title `t1` and returns
no candidates otherwise. -/
def envSearchFails : PlexEnv :=
  ⟨fun t => if t == toCL "t1" then Except.error ⟨1⟩ else Except.ok [],
   fun _ => Except.ok ()⟩

/-- C1 counterexample: with a desired set of two records and a search
that raises on the first record's title, the run aborts with the raised
error — the first record is not downgraded to unsynced (no unsynced
list is returned at all) and the second record is never searched. -/
theorem converge_failure_claim_cex :
    sync_watchlist envSearchFails [movieT1, movieT2] [] =
      (Except.error ⟨1⟩, [Event.search (toCL "t1")]) ∧
    Event.search (toCL "t2") ∉
      (sync_watchlist envSearchFails [movieT1, movieT2] []).2 := by
  constructor
  · rfl
  · decide

/-- C1 (amended): a search or add failure for one desired-set record
ABORTS the run — the source catches nothing, so the error propagates,
no unsynced list is produced, and no record after the failing one is
processed.  A record is treated as unsynced only when its search
succeeds and returns no identifier-confirmed candidate. -/
theorem converge_failure_aborts (env : PlexEnv) (movie : MovieRecord)
    (rest : List MovieRecord) (ap : List (List Char))
    (hnp : movie.imdb_id ∉ ap) :
    (∀ e, env.searchDiscover movie.title = Except.error e →
      sync_watchlist env (movie :: rest) ap =
        (Except.error e, [Event.search movie.title])) ∧
    (∀ e results c, env.searchDiscover movie.title = Except.ok results →
      firstMatchingCandidate movie.imdb_id results = some c →
      env.addToWatchlist c = Except.error e →
      sync_watchlist env (movie :: rest) ap =
        (Except.error e, [Event.search movie.title, Event.added movie c])) := by
  constructor
  · intro e hse
    rw [sync_watchlist, if_neg hnp, hse]
  · intro e results c hse hfc hadd
    rw [sync_watchlist, if_neg hnp, hse]
    simp only [hfc, hadd]

/-- Witness for the amended C1: a concrete failing search aborts a
one-record run. -/
theorem converge_failure_aborts_witness :
    movieT1.imdb_id ∉ ([] : List (List Char)) ∧
    envSearchFails.searchDiscover movieT1.title = Except.error ⟨1⟩ ∧
    sync_watchlist envSearchFails [movieT1] [] =
      (Except.error ⟨1⟩, [Event.search movieT1.title]) :=
  ⟨by decide, rfl,
   (converge_failure_aborts envSearchFails movieT1 [] []
     (by decide)).1 ⟨1⟩ rfl⟩

theorem firstMatchingCandidate_append (movie_id : List Char)
    (c : WatchlistItem) (hc : c.guids.any (guidMatches movie_id) = true) :
    ∀ pre post, (∀ x ∈ pre, x.guids.any (guidMatches movie_id) = false) →
      firstMatchingCandidate movie_id (pre ++ c :: post) = some c := by
  intro pre
  induction pre with
  | nil =>
    intro post _
    rw [List.nil_append, firstMatchingCandidate, if_pos hc]
  | cons x xs ih =>
    intro post hmiss
    rw [List.cons_append, firstMatchingCandidate,
      if_neg (by rw [hmiss x (by simp)]; simp)]
    exact ih post fun y hy => hmiss y (by simp [hy])

theorem firstMatchingCandidate_none (movie_id : List Char) :
    ∀ results, (∀ x ∈ results, x.guids.any (guidMatches movie_id) = false) →
      firstMatchingCandidate movie_id results = none := by
  intro results
  induction results with
  | nil => intro _; rfl
  | cons x xs ih =>
    intro hmiss
    rw [firstMatchingCandidate, if_neg (by rw [hmiss x (by simp)]; simp)]
    exact ih fun y hy => hmiss y (by simp [hy])

/-- C7: first-match wins in convergence.  For a record not already
present: if the search returns candidates `pre ++ c :: post` where no
candidate in `pre` has a matching identifier and `c` does, exactly one
add operation is issued, for `c`, and none of `post` affects the run,
which continues with the remaining records and does not mark the record
unsynced; if no returned candidate has a matching identifier, no add is
issued and the record is prepended to the unsynced result. -/
theorem converge_first_match (env : PlexEnv) (movie : MovieRecord)
    (rest : List MovieRecord) (ap : List (List Char))
    (hnp : movie.imdb_id ∉ ap) :
    (∀ pre c post,
      env.searchDiscover movie.title = Except.ok (pre ++ c :: post) →
      (∀ x ∈ pre, x.guids.any (guidMatches movie.imdb_id) = false) →
      c.guids.any (guidMatches movie.imdb_id) = true →
      env.addToWatchlist c = Except.ok () →
      sync_watchlist env (movie :: rest) ap =
        ((sync_watchlist env rest ap).1,
         Event.search movie.title :: Event.added movie c ::
           (sync_watchlist env rest ap).2)) ∧
    (∀ results, env.searchDiscover movie.title = Except.ok results →
      (∀ x ∈ results, x.guids.any (guidMatches movie.imdb_id) = false) →
      sync_watchlist env (movie :: rest) ap =
        (Except.map (fun l => movie :: l) (sync_watchlist env rest ap).1,
         Event.search movie.title :: (sync_watchlist env rest ap).2)) := by
  constructor
  · intro pre c post hse hmiss hc hadd
    rw [sync_watchlist, if_neg hnp, hse]
    simp only [firstMatchingCandidate_append movie.imdb_id c hc pre post hmiss,
      hadd]
  · intro results hse hmiss
    rw [sync_watchlist, if_neg hnp, hse]
    simp only [firstMatchingCandidate_none movie.imdb_id results hmiss]

/-- A Discover candidate whose guid list decodes to `movieT1`'s id. -/
def candT1 : WatchlistItem := ⟨toCL "t1", [toCL "imdb://id1"]⟩

/-- An environment whose search returns `candT1` for title `t1`. -/
def envFindsT1 : PlexEnv :=
  ⟨fun t => if t == toCL "t1" then Except.ok [candT1] else Except.ok [],
   fun _ => Except.ok ()⟩

/-- Witness for C7: a concrete run adds the single matching candidate
and continues. -/
theorem converge_first_match_witness :
    movieT1.imdb_id ∉ ([] : List (List Char)) ∧
    sync_watchlist envFindsT1 [movieT1] [] =
      ((sync_watchlist envFindsT1 [] []).1,
       Event.search movieT1.title :: Event.added movieT1 candT1 ::
         (sync_watchlist envFindsT1 [] []).2) :=
  ⟨by decide,
   (converge_first_match envFindsT1 movieT1 [] [] (by decide)).1 [] candT1 []
     rfl (by intro x hx; cases hx) (by decide) rfl⟩

/-- The desired-set records for which an add operation appears in the
trace: the converge output the spec calls `added`. -/
def addedOf : List Event → List MovieRecord
  | [] => []
  | Event.added m _ :: rest => m :: addedOf rest
  | Event.search _ :: rest => addedOf rest
  | Event.removeCall _ :: rest => addedOf rest

/-- Whether the (deterministic) search environment yields an
identifier-confirmed candidate for record `m`. -/
def recordFound (env : PlexEnv) (m : MovieRecord) : Bool :=
  match env.searchDiscover m.title with
  | Except.error _ => false
  | Except.ok results => (firstMatchingCandidate m.imdb_id results).isSome

theorem sync_ok_perm (env : PlexEnv) (ap : List (List Char)) :
    ∀ (wl u : List MovieRecord) (ev : List Event),
      sync_watchlist env wl ap = (Except.ok u, ev) →
      (addedOf ev ++ u).Perm (wl.filter fun m => decide (m.imdb_id ∉ ap)) := by
  intro wl
  induction wl with
  | nil =>
    intro u ev h
    rw [sync_watchlist] at h
    injection h with h1 h2
    injection h1 with h1
    subst h1
    subst h2
    simp [addedOf]
  | cons movie rest ih =>
    intro u ev h
    rw [sync_watchlist] at h
    by_cases hp : movie.imdb_id ∈ ap
    · rw [if_pos hp] at h
      rw [List.filter_cons_of_neg (by simp [hp])]
      exact ih u ev h
    · rw [if_neg hp] at h
      rw [List.filter_cons_of_pos (by simp [hp])]
      cases hse : env.searchDiscover movie.title with
      | error e =>
        simp only [hse] at h
        injection h with h1 _
        exact Except.noConfusion h1
      | ok results =>
        simp only [hse] at h
        cases hfc : firstMatchingCandidate movie.imdb_id results with
        | some c =>
          simp only [hfc] at h
          cases hadd : env.addToWatchlist c with
          | error e =>
            simp only [hadd] at h
            injection h with h1 _
            exact Except.noConfusion h1
          | ok _ =>
            simp only [hadd] at h
            injection h with h1 h2
            have hrest : sync_watchlist env rest ap =
                (Except.ok u, (sync_watchlist env rest ap).2) := by
              rw [← h1]
            have ihh := ih u (sync_watchlist env rest ap).2 hrest
            subst h2
            rw [addedOf, addedOf, List.cons_append]
            exact List.Perm.cons movie ihh
        | none =>
          simp only [hfc] at h
          injection h with h1 h2
          cases hr : (sync_watchlist env rest ap).1 with
          | error e =>
            rw [hr] at h1
            simp [Except.map] at h1
          | ok u0 =>
            rw [hr] at h1
            simp only [Except.map] at h1
            injection h1 with h1
            subst h1
            have hrest : sync_watchlist env rest ap =
                (Except.ok u0, (sync_watchlist env rest ap).2) := by
              rw [← hr]
            have ihh := ih u0 (sync_watchlist env rest ap).2 hrest
            subst h2
            rw [addedOf]
            exact List.perm_middle.trans (List.Perm.cons movie ihh)

theorem mem_addedOf_found (env : PlexEnv) (ap : List (List Char)) :
    ∀ (wl u : List MovieRecord) (ev : List Event),
      sync_watchlist env wl ap = (Except.ok u, ev) →
      ∀ m ∈ addedOf ev, recordFound env m = true := by
  intro wl
  induction wl with
  | nil =>
    intro u ev h
    rw [sync_watchlist] at h
    injection h with _ h2
    subst h2
    intro m hm
    cases hm
  | cons movie rest ih =>
    intro u ev h
    rw [sync_watchlist] at h
    by_cases hp : movie.imdb_id ∈ ap
    · rw [if_pos hp] at h
      exact ih u ev h
    · rw [if_neg hp] at h
      cases hse : env.searchDiscover movie.title with
      | error e =>
        simp only [hse] at h
        injection h with h1 _
        exact Except.noConfusion h1
      | ok results =>
        simp only [hse] at h
        cases hfc : firstMatchingCandidate movie.imdb_id results with
        | some c =>
          simp only [hfc] at h
          cases hadd : env.addToWatchlist c with
          | error e =>
            simp only [hadd] at h
            injection h with h1 _
            exact Except.noConfusion h1
          | ok _ =>
            simp only [hadd] at h
            injection h with h1 h2
            have hrest : sync_watchlist env rest ap =
                (Except.ok u, (sync_watchlist env rest ap).2) := by
              rw [← h1]
            subst h2
            intro m hm
            rw [addedOf, addedOf] at hm
            cases hm with
            | head =>
              rw [recordFound]
              simp only [hse, hfc]
              rfl
            | tail _ hm2 =>
              exact ih u (sync_watchlist env rest ap).2 hrest m hm2
        | none =>
          simp only [hfc] at h
          injection h with h1 h2
          cases hr : (sync_watchlist env rest ap).1 with
          | error e =>
            rw [hr] at h1
            simp [Except.map] at h1
          | ok u0 =>
            have hrest : sync_watchlist env rest ap =
                (Except.ok u0, (sync_watchlist env rest ap).2) := by
              rw [← hr]
            subst h2
            intro m hm
            rw [addedOf] at hm
            exact ih u0 (sync_watchlist env rest ap).2 hrest m hm

theorem mem_unsynced_not_found (env : PlexEnv) (ap : List (List Char)) :
    ∀ (wl u : List MovieRecord) (ev : List Event),
      sync_watchlist env wl ap = (Except.ok u, ev) →
      ∀ m ∈ u, recordFound env m = false := by
  intro wl
  induction wl with
  | nil =>
    intro u ev h
    rw [sync_watchlist] at h
    injection h with h1 _
    injection h1 with h1
    subst h1
    intro m hm
    cases hm
  | cons movie rest ih =>
    intro u ev h
    rw [sync_watchlist] at h
    by_cases hp : movie.imdb_id ∈ ap
    · rw [if_pos hp] at h
      exact ih u ev h
    · rw [if_neg hp] at h
      cases hse : env.searchDiscover movie.title with
      | error e =>
        simp only [hse] at h
        injection h with h1 _
        exact Except.noConfusion h1
      | ok results =>
        simp only [hse] at h
        cases hfc : firstMatchingCandidate movie.imdb_id results with
        | some c =>
          simp only [hfc] at h
          cases hadd : env.addToWatchlist c with
          | error e =>
            simp only [hadd] at h
            injection h with h1 _
            exact Except.noConfusion h1
          | ok _ =>
            simp only [hadd] at h
            injection h with h1 _
            have hrest : sync_watchlist env rest ap =
                (Except.ok u, (sync_watchlist env rest ap).2) := by
              rw [← h1]
            exact ih u (sync_watchlist env rest ap).2 hrest
        | none =>
          simp only [hfc] at h
          injection h with h1 _
          cases hr : (sync_watchlist env rest ap).1 with
          | error e =>
            rw [hr] at h1
            simp [Except.map] at h1
          | ok u0 =>
            rw [hr] at h1
            simp only [Except.map] at h1
            injection h1 with h1
            subst h1
            have hrest : sync_watchlist env rest ap =
                (Except.ok u0, (sync_watchlist env rest ap).2) := by
              rw [← hr]
            intro m hm
            cases hm with
            | head =>
              rw [recordFound]
              simp only [hse, hfc]
              rfl
            | tail _ hm2 =>
              exact ih u0 (sync_watchlist env rest ap).2 hrest m hm2

/-- C6: convergence partition.  When a run of `sync_watchlist` completes
(returns an unsynced list rather than propagating an error), the added
records — read off the trace — together with the unsynced records are a
permutation of exactly the desired-set entries whose id is not in
`already_present`; no record is both added and unsynced; and records
whose id is in `already_present` appear in neither output. -/
theorem converge_partition (env : PlexEnv) (wl : List MovieRecord)
    (ap : List (List Char)) (unsynced : List MovieRecord) (events : List Event)
    (h : sync_watchlist env wl ap = (Except.ok unsynced, events)) :
    (addedOf events ++ unsynced).Perm
        (wl.filter fun m => decide (m.imdb_id ∉ ap)) ∧
    (∀ m ∈ addedOf events, m ∉ unsynced) ∧
    (∀ m, m ∈ addedOf events ++ unsynced → m.imdb_id ∉ ap) := by
  have hperm := sync_ok_perm env ap wl unsynced events h
  refine ⟨hperm, ?_, ?_⟩
  · intro m hma hmu
    have h1 := mem_addedOf_found env ap wl unsynced events h m hma
    have h2 := mem_unsynced_not_found env ap wl unsynced events h m hmu
    rw [h1] at h2
    exact Bool.noConfusion h2
  · intro m hm
    have hmf := hperm.mem_iff.mp hm
    have := (List.mem_filter.mp hmf).2
    exact of_decide_eq_true this

/-- Witness for C6: a completed two-record run — one record already
present, the other searched and unsynced. -/
theorem converge_partition_witness :
    sync_watchlist envSearchFails [movieT2, movieT1] [toCL "id1"] =
      (Except.ok [movieT2], [Event.search (toCL "t2")]) ∧
    ((addedOf [Event.search (toCL "t2")] ++ [movieT2]).Perm
        ([movieT2, movieT1].filter fun m =>
          decide (m.imdb_id ∉ [toCL "id1"])) ∧
     (∀ m ∈ addedOf [Event.search (toCL "t2")], m ∉ [movieT2]) ∧
     (∀ m, m ∈ addedOf [Event.search (toCL "t2")] ++ [movieT2] →
        m.imdb_id ∉ [toCL "id1"])) :=
  ⟨rfl,
   converge_partition envSearchFails [movieT2, movieT1] [toCL "id1"]
     [movieT2] [Event.search (toCL "t2")] rfl⟩

/-- The inputs and remote operations the orchestration in `main` uses
(source lines 155-188): the current Plex watchlist, the two fetched
Letterboxd lists, the bulk remove operation, and the search/add
operations convergence uses. -/
structure MainEnv where
  current_watchlist : List WatchlistItem
  letterboxd_watchlist : List MovieRecord
  letterboxd_watched : List MovieRecord
  removeFromWatchlist : List WatchlistItem → Except PyErr Unit
  plex : PlexEnv

/-- The `movies_to_remove` local of `main` (source line 168). -/
def movies_to_remove (env : MainEnv) : List WatchlistItem :=
  (process_watchlist_items env.current_watchlist env.letterboxd_watchlist
    env.letterboxd_watched).1

/-- The `already_present` local of `main` (source line 168). -/
def already_present_ids (env : MainEnv) : List (List Char) :=
  (process_watchlist_items env.current_watchlist env.letterboxd_watchlist
    env.letterboxd_watched).2.1

/-- Embedding of the orchestration in `main` after the fetches (source
lines 167-188): classify, bulk-remove when the remove bucket is nonempty
(`if movies_to_remove:`), then converge via `sync_watchlist`; the final
unsynced report is the returned list.  The source wraps the bulk remove
in no `try`/`except`, so an exception from it propagates: the run ends
with the error before any convergence call and produces no report. -/
def main_run (env : MainEnv) : Except PyErr (List MovieRecord) × List Event :=
  if (movies_to_remove env).isEmpty then
    sync_watchlist env.plex env.letterboxd_watchlist (already_present_ids env)
  else
    match env.removeFromWatchlist (movies_to_remove env) with
    | Except.error e => (Except.error e, [Event.removeCall (movies_to_remove env)])
    | Except.ok _ =>
      ((sync_watchlist env.plex env.letterboxd_watchlist
          (already_present_ids env)).1,
       Event.removeCall (movies_to_remove env) ::
         (sync_watchlist env.plex env.letterboxd_watchlist
           (already_present_ids env)).2)

/-- C8: a failing bulk remove is fatal.  When the remove bucket is
nonempty (so `main` issues the bulk remove at all) and that call raises,
the run ends with the raised error: the trace consists of the remove
call alone — no convergence search or add is ever issued — and no
unsynced report is produced. -/
theorem remove_failure_fatal (env : MainEnv) (e : PyErr)
    (hne : movies_to_remove env ≠ [])
    (hrem : env.removeFromWatchlist (movies_to_remove env) = Except.error e) :
    main_run env = (Except.error e, [Event.removeCall (movies_to_remove env)]) := by
  rw [main_run, if_neg (by simp [List.isEmpty_iff, hne])]
  simp only [hrem]

/-- An orchestration environment whose bulk remove raises: one current
item is already watched, so the remove bucket is nonempty. -/
def mainEnvRemoveFails : MainEnv :=
  ⟨[⟨toCL "W1", [toCL "imdb://idw"]⟩], [], [⟨toCL "W1", toCL "idw"⟩],
   fun _ => Except.error ⟨9⟩, envSearchFails⟩

/-- Witness for C8 at a concrete environment with a failing bulk
remove. -/
theorem remove_failure_fatal_witness :
    movies_to_remove mainEnvRemoveFails ≠ [] ∧
    mainEnvRemoveFails.removeFromWatchlist (movies_to_remove mainEnvRemoveFails) =
      Except.error ⟨9⟩ ∧
    main_run mainEnvRemoveFails =
      (Except.error ⟨9⟩, [Event.removeCall (movies_to_remove mainEnvRemoveFails)]) :=
  ⟨by decide, rfl, remove_failure_fatal mainEnvRemoveFails ⟨9⟩ (by decide) rfl⟩


end LetterboxdPlexSync
